import Mathlib

/-!
Verification development for the post-link binary patcher
(`tools/runtime/patch_runtime.py`).

The Python functions are shallowly embedded as Lean functions.  Python
integers are arbitrary-precision, so addresses and offsets are modelled as
`Int` (or `Nat` where the Python value is always non-negative).  The Python
operators on integers correspond as follows:
  * `x % m` for `m > 0`  ↦  `Int.emod x m` (result has the sign of the divisor);
  * `x >> k`             ↦  `Int.fdiv x (2^k)` (arithmetic shift = floor division);
  * `x & (2^k - 1)`      ↦  `x % 2^k` (for non-negative `x`: `Nat` `&&&` mask);
  * `x | y`, `x & y` on non-negative values  ↦  `Nat` `|||`, `&&&`.
The byte buffer (`bytearray`) is modelled as a `List ℕ` of byte values.
-/

/-! ### Bit-level helper lemmas -/

/-- `&&&` distributes across a base-`2^n` digit decomposition. -/
theorem land_two_pow_mul_add (a c m t n : ℕ) (hm : m < 2 ^ n) (ht : t < 2 ^ n) :
    (2 ^ n * a + m) &&& (2 ^ n * c + t) = 2 ^ n * (a &&& c) + (m &&& t) := by
  have hmt : m &&& t < 2 ^ n := Nat.and_lt_two_pow m ht
  apply Nat.eq_of_testBit_eq
  intro j
  rw [Nat.testBit_and, Nat.testBit_mul_pow_two_add a hm j, Nat.testBit_mul_pow_two_add c ht j,
      Nat.testBit_mul_pow_two_add (a &&& c) hmt j]
  by_cases h : j < n <;> simp [h, Nat.testBit_and]

/-- `|||` distributes across a base-`2^n` digit decomposition. -/
theorem lor_two_pow_mul_add (a c m t n : ℕ) (hm : m < 2 ^ n) (ht : t < 2 ^ n) :
    (2 ^ n * a + m) ||| (2 ^ n * c + t) = 2 ^ n * (a ||| c) + (m ||| t) := by
  have hmt : m ||| t < 2 ^ n := Nat.or_lt_two_pow hm ht
  apply Nat.eq_of_testBit_eq
  intro j
  rw [Nat.testBit_or, Nat.testBit_mul_pow_two_add a hm j, Nat.testBit_mul_pow_two_add c ht j,
      Nat.testBit_mul_pow_two_add (a ||| c) hmt j]
  by_cases h : j < n <;> simp [h, Nat.testBit_or]

/-- Or-ing the 26 immediate bits into the `bl` opcode constant is an addition:
the low 26 bits of `0x94000000` are zero. -/
theorem lor_bl_opcode (m : ℕ) (hm : m < 0x4000000) : 0x94000000 ||| m = 0x94000000 + m := by
  have h : (0x94000000 : ℕ) = 2 ^ 26 * 37 := by norm_num
  have hm' : m < 2 ^ 26 := by norm_num at hm ⊢; omega
  rw [h, (Nat.mul_add_lt_is_or hm' 37).symm]

/-- Masking with `0xfc000000` extracts the top-6-bit digit of a 32-bit word. -/
theorem land_top6 (x : ℕ) (hx : x < 0x100000000) :
    x &&& 0xfc000000 = 0x4000000 * (x / 0x4000000) := by
  have hdecomp : x = 2 ^ 26 * (x / 0x4000000) + x % 0x4000000 := by
    have := Nat.div_add_mod x 0x4000000
    norm_num
    omega
  have hmask : (0xfc000000 : ℕ) = 2 ^ 26 * 63 + 0 := by norm_num
  have hm : x % 0x4000000 < 2 ^ 26 := by
    have := Nat.mod_lt x (show 0 < 0x4000000 by norm_num)
    norm_num
    omega
  have ht : (0 : ℕ) < 2 ^ 26 := by norm_num
  have hq : x / 0x4000000 < 64 := by omega
  have hsmall : ∀ q : ℕ, q < 64 → q &&& 63 = q := by decide
  calc x &&& 0xfc000000
      = (2 ^ 26 * (x / 0x4000000) + x % 0x4000000) &&& (2 ^ 26 * 63 + 0) := by
        rw [← hdecomp, ← hmask]
    _ = 2 ^ 26 * ((x / 0x4000000) &&& 63) + (x % 0x4000000 &&& 0) :=
        land_two_pow_mul_add _ _ _ _ 26 hm ht
    _ = 0x4000000 * (x / 0x4000000) := by
        rw [hsmall _ hq, Nat.and_zero]
        norm_num

/-- Masking a word with `0x3ffffff` keeps its low 26 bits. -/
theorem land_low26 (x : ℕ) : x &&& 0x3ffffff = x % 0x4000000 := by
  have h := Nat.and_pow_two_sub_one_eq_mod x 26
  norm_num at h
  exact h

/-- Testing bit 25 of a 26-bit value compares it with `0x2000000`. -/
theorem land_bit25 (x : ℕ) (hx : x < 0x4000000) :
    x &&& 0x2000000 = if 0x2000000 ≤ x then 0x2000000 else 0 := by
  have hdecomp : x = 2 ^ 25 * (x / 0x2000000) + x % 0x2000000 := by
    have := Nat.div_add_mod x 0x2000000
    norm_num
    omega
  have hmask : (0x2000000 : ℕ) = 2 ^ 25 * 1 + 0 := by norm_num
  have hm : x % 0x2000000 < 2 ^ 25 := by
    have := Nat.mod_lt x (show 0 < 0x2000000 by norm_num)
    norm_num
    omega
  have ht : (0 : ℕ) < 2 ^ 25 := by norm_num
  have hq : x / 0x2000000 < 2 := by omega
  have hsmall : ∀ q : ℕ, q < 2 → q &&& 1 = q := by decide
  have hx' : x &&& 0x2000000 = 2 ^ 25 * (x / 0x2000000) := by
    calc x &&& 0x2000000
        = (2 ^ 25 * (x / 0x2000000) + x % 0x2000000) &&& (2 ^ 25 * 1 + 0) := by
          rw [← hdecomp, ← hmask]
      _ = 2 ^ 25 * ((x / 0x2000000) &&& 1) + (x % 0x2000000 &&& 0) :=
          land_two_pow_mul_add _ _ _ _ 25 hm ht
      _ = 2 ^ 25 * (x / 0x2000000) := by rw [hsmall _ hq, Nat.and_zero, Nat.add_zero]
  rw [hx']
  by_cases h : 0x2000000 ≤ x
  · rw [if_pos h]
    norm_num
    omega
  · rw [if_neg h]
    norm_num
    omega

/-! ### Instruction codec (`encode_bl_instruction`, lines 121-133, and the
decode rule of `patch_call_site`, lines 152-158) -/

/-- The two `ValueError` conditions raised by `encode_bl_instruction`. -/
inductive EncodeError where
  /-- "Target address must be 4-byte aligned (offset=...)" -/
  | misalignedTarget (offset : ℤ)
  /-- "Branch offset out of range: ... (max ±128MB)" -/
  | offsetOutOfRange (offset : ℤ)
deriving DecidableEq, Repr

/-- `encode_bl_instruction(pc, target)`:
```
offset = target - pc
if offset % 4 != 0: raise ValueError(...)
if not (-0x8000000 <= offset <= 0x7ffffff): raise ValueError(...)
imm26 = (offset >> 2) & 0x3ffffff
return 0x94000000 | imm26
```
`offset % 4` is Python's sign-of-divisor modulus (`Int.emod`), `offset >> 2`
is an arithmetic shift (`Int.fdiv` by 4), and `& 0x3ffffff` on a possibly
negative Python int is `Int.emod` by `2^26`. -/
def encode_bl_instruction (pc target : ℤ) : Except EncodeError ℕ :=
  let offset := target - pc
  if Int.emod offset 4 ≠ 0 then
    Except.error (EncodeError.misalignedTarget offset)
  else if ¬ (-0x8000000 ≤ offset ∧ offset ≤ 0x7ffffff) then
    Except.error (EncodeError.offsetOutOfRange offset)
  else
    let imm26 := Int.toNat (Int.emod (Int.fdiv offset 4) 0x4000000)
    Except.ok (0x94000000 ||| imm26)

/-- The decode computation of `patch_call_site` (lines 152-158):
```
imm26 = current_insn & 0x3ffffff
if imm26 & 0x2000000:
    imm26 |= 0xfc000000
current_offset = imm26 << 2
current_target = call_vaddr + current_offset
```
All values here are non-negative Python ints: the `|= 0xfc000000` produces a
large positive integer, not a negative one. -/
def decode_bl_target (call_vaddr : ℤ) (current_insn : ℕ) : ℤ :=
  let imm26 := current_insn &&& 0x3ffffff
  let imm26 := if imm26 &&& 0x2000000 ≠ 0 then imm26 ||| 0xfc000000 else imm26
  let current_offset := imm26 <<< 2
  call_vaddr + (current_offset : ℤ)

/-- Modelled from the spec: the decode rule of §4.4 as the external
disassembler (and the architecture) defines it, with a genuinely *signed*
26-bit immediate — "Extract the low 26 bits as a signed immediate: if bit 25
is set, sign-extend by filling the upper 6 bits with ones.  The encoded
target is `instruction_address + (immediate << 2)`."  This is the decoded
target the Call-Site Scanner's collaborator (`target-objdump`) reports; the
in-repository decode in `patch_call_site` is `decode_bl_target` above. -/
def disasm_bl_target (call_vaddr : ℤ) (insn : ℕ) : ℤ :=
  let imm26 := insn % 0x4000000
  let simm : ℤ := if 0x2000000 ≤ imm26 then (imm26 : ℤ) - 0x4000000 else (imm26 : ℤ)
  call_vaddr + simm * 4

/-! ### The image buffer

The mutable `bytearray` holding the whole ELF image is modelled as a
`List ℕ` of byte values.  `struct.unpack_from('<I', data, off)` /
`struct.pack_into('<I', data, off, v)` become `readWordLE` / `writeWordLE`;
`struct` itself raises when fewer than 4 bytes are available at `off`, which
the engine model checks at the corresponding call sites. -/

/-- All entries of the buffer are bytes (`bytearray` invariant). -/
def ByteBuf (data : List ℕ) : Prop := ∀ b ∈ data, b < 256

/-- `struct.unpack_from('<I', data, off)[0]`: the little-endian 32-bit word
starting at `off`. -/
def readWordLE (data : List ℕ) (off : ℕ) : ℕ :=
  data.getD off 0 + 0x100 * data.getD (off + 1) 0 + 0x10000 * data.getD (off + 2) 0 +
    0x1000000 * data.getD (off + 3) 0

/-- `struct.pack_into('<I', data, off, v)`: store `v` little-endian into the
four bytes starting at `off`. -/
def writeWordLE (data : List ℕ) (off : ℕ) (v : ℕ) : List ℕ :=
  ((((data.set off (v % 0x100)).set (off + 1) (v / 0x100 % 0x100)).set
      (off + 2) (v / 0x10000 % 0x100)).set (off + 3) (v / 0x1000000 % 0x100))

theorem length_writeWordLE (data : List ℕ) (off v : ℕ) :
    (writeWordLE data off v).length = data.length := by
  simp [writeWordLE]

/-- Writing a word only touches the four bytes at `off`. -/
theorem getD_writeWordLE_of_ne (data : List ℕ) (off v i : ℕ)
    (h : i < off ∨ off + 4 ≤ i) :
    (writeWordLE data off v).getD i 0 = data.getD i 0 := by
  have h0 : i ≠ off := by omega
  have h1 : i ≠ off + 1 := by omega
  have h2 : i ≠ off + 2 := by omega
  have h3 : i ≠ off + 3 := by omega
  simp [writeWordLE, List.getD_eq_getElem?_getD, List.getElem?_set_ne,
    Ne.symm h0, Ne.symm h1, Ne.symm h2, Ne.symm h3]

theorem getD_lt_of_byteBuf {data : List ℕ} (h : ByteBuf data) (i : ℕ) :
    data.getD i 0 < 256 := by
  rw [List.getD_eq_getElem?_getD]
  cases hg : data[i]? with
  | none => norm_num
  | some a => exact h _ (List.getElem?_mem hg)

theorem readWordLE_lt (data : List ℕ) (off : ℕ) (h : ByteBuf data) :
    readWordLE data off < 0x100000000 := by
  have h0 := getD_lt_of_byteBuf h off
  have h1 := getD_lt_of_byteBuf h (off + 1)
  have h2 := getD_lt_of_byteBuf h (off + 2)
  have h3 := getD_lt_of_byteBuf h (off + 3)
  unfold readWordLE
  omega

/-- Setting an entry to the value it already holds is the identity. -/
theorem set_getD_self : ∀ (l : List ℕ) (i : ℕ), i < l.length → l.set i (l.getD i 0) = l
  | [], i, h => by simp at h
  | x :: xs, 0, _ => by simp
  | x :: xs, i + 1, h => by
    have ih := set_getD_self xs i (by simpa using h)
    simp only [List.set, List.getD, List.getElem?_cons_succ, List.get?_eq_getElem?] at ih ⊢
    simp_all [List.getD]

/-- Writing back the word that is already present leaves the buffer unchanged. -/
theorem writeWordLE_readWordLE (data : List ℕ) (off : ℕ) (hwf : ByteBuf data)
    (hlen : off + 4 ≤ data.length) :
    writeWordLE data off (readWordLE data off) = data := by
  have h0 := getD_lt_of_byteBuf hwf off
  have h1 := getD_lt_of_byteBuf hwf (off + 1)
  have h2 := getD_lt_of_byteBuf hwf (off + 2)
  have h3 := getD_lt_of_byteBuf hwf (off + 3)
  have e0 : readWordLE data off % 0x100 = data.getD off 0 := by
    unfold readWordLE
    omega
  have e1 : readWordLE data off / 0x100 % 0x100 = data.getD (off + 1) 0 := by
    unfold readWordLE
    omega
  have e2 : readWordLE data off / 0x10000 % 0x100 = data.getD (off + 2) 0 := by
    unfold readWordLE
    omega
  have e3 : readWordLE data off / 0x1000000 % 0x100 = data.getD (off + 3) 0 := by
    unfold readWordLE
    omega
  unfold writeWordLE
  rw [e0, set_getD_self data off (by omega)]
  rw [e1, set_getD_self data (off + 1) (by omega)]
  rw [e2, set_getD_self data (off + 2) (by omega)]
  rw [e3, set_getD_self data (off + 3) (by omega)]

/-! ### Symbol resolver (`find_symbol_address`, lines 61-98)

The `target-nm` collaborator's output is modelled as the list of parsed
symbol records `(address, type character, name)` in output order, per the
spec's §6 Symbol-inspector contract. -/

structure SymRecord where
  addr : ℕ
  symType : Char
  name : String
deriving DecidableEq, Repr

inductive SymbolError where
  /-- RuntimeError "Could not find symbol: ..." -/
  | symbolNotFound (name : String)
deriving DecidableEq, Repr

/-- The `matches` list collected by `find_symbol_address`: records whose name
equals `symbol_name` and whose type is in `'Tt'`, in input order. -/
def symbolMatches (records : List SymRecord) (symbol_name : String) : List SymRecord :=
  records.filter (fun r => decide (r.name = symbol_name ∧ (r.symType = 'T' ∨ r.symType = 't')))

/-- The preference loop: `for addr, sym_type in matches: if sym_type == prefer_type: return addr`. -/
def preferLoop : List SymRecord → Char → Option ℕ
  | [], _ => none
  | r :: rest, t => if r.symType = t then some r.addr else preferLoop rest t

/-- `find_symbol_address(elf_path, symbol_name, env, prefer_type)` over parsed
records: collect matches, raise `SymbolNotFound` when empty, return the first
record of the preferred type if one exists, else the first match. -/
def find_symbol_address (records : List SymRecord) (symbol_name : String)
    (prefer_type : Option Char) : Except SymbolError ℕ :=
  match symbolMatches records symbol_name with
  | [] => Except.error (SymbolError.symbolNotFound symbol_name)
  | m :: rest =>
    match prefer_type with
    | some t =>
      match preferLoop (m :: rest) t with
      | some addr => Except.ok addr
      | none => Except.ok m.addr
    | none => Except.ok m.addr

/-! ### Call-site scanner (`find_call_sites`, lines 100-119)

`target-objdump -d` output is modelled as the parsed records matched by the
`bl` line pattern: `(address, raw 32-bit word, decoded target)`. -/

structure DisasmRecord where
  addr : ℤ
  insn : ℕ
  target : ℤ
deriving DecidableEq, Repr

/-- Records whose decoded target equals `target_addr`, as `(call_addr, insn)`
pairs in input order. -/
def find_call_sites (records : List DisasmRecord) (target_addr : ℤ) : List (ℤ × ℕ) :=
  (records.filter (fun r => decide (r.target = target_addr))).map (fun r => (r.addr, r.insn))

/-! ### Patch engine (`patch_call_site` lines 135-176, `patch_runtime` lines 178-236) -/

/-- Python exceptions that escape `patch_call_site` (not caught by the
`except RuntimeError` in `patch_runtime`): `struct.error` when fewer than 4
bytes are available at the (non-negative, in-range) offset. -/
inductive RuntimeFault where
  | unpackOutOfBounds (offset : ℤ)
deriving DecidableEq, Repr

/-- `patch_call_site(data, file_offset_base, vaddr_base, call_vaddr,
old_target, new_target)`.  Returns the Python return value (`False`: site
skipped, `True`: site patched) or the escaping exception, paired with the
buffer after the call.  Mirrors the source order: bounds check on
`file_offset` (warning + `False` when negative or `>= len(data)`), 4-byte
read (`struct.error` if it straddles the end), opcode-class check
(warning + `False`), decode of the current target (a mismatch with
`old_target` only prints a warning), encode (`ValueError` caught, `False`),
then the 4-byte write and `True`. -/
def patch_call_site (data : List ℕ) (file_offset_base vaddr_base call_vaddr
    old_target new_target : ℤ) : Except RuntimeFault Bool × List ℕ :=
  let file_offset := file_offset_base + (call_vaddr - vaddr_base)
  if file_offset < 0 ∨ (data.length : ℤ) ≤ file_offset then
    (Except.ok false, data)
  else if (data.length : ℤ) < file_offset + 4 then
    (Except.error (RuntimeFault.unpackOutOfBounds file_offset), data)
  else
    let current_insn := readWordLE data file_offset.toNat
    if current_insn &&& 0xfc000000 ≠ 0x94000000 then
      (Except.ok false, data)
    else
      -- lines 152-162: decode the current target and compare it with
      -- `old_target`; a mismatch only prints a warning and the patch
      -- proceeds anyway.
      let _warn_mismatch := decode_bl_target call_vaddr current_insn ≠ old_target
      match encode_bl_instruction call_vaddr new_target with
      | Except.error _ => (Except.ok false, data)
      | Except.ok new_insn => (Except.ok true, writeWordLE data file_offset.toNat new_insn)

/-- The per-site loop of `patch_runtime` (lines 220-222): patch each call
site in order, threading the buffer and counting successful patches.  An
escaping exception aborts the whole run. -/
def patch_sites (data : List ℕ) (file_offset_base vaddr_base : ℤ) (sites : List ℤ)
    (old_target new_target : ℤ) : Except RuntimeFault (List ℕ × ℕ) :=
  match sites with
  | [] => Except.ok (data, 0)
  | cv :: rest =>
    match patch_call_site data file_offset_base vaddr_base cv old_target new_target with
    | (Except.error e, _) => Except.error e
    | (Except.ok patched, data') =>
      match patch_sites data' file_offset_base vaddr_base rest old_target new_target with
      | Except.error e => Except.error e
      | Except.ok (data'', n) => Except.ok (data'', (if patched then 1 else 0) + n)

/-- One requested replacement pair. -/
structure Replacement where
  old_func : String
  new_func : String
deriving DecidableEq, Repr

/-- The body of the replacement loop of `patch_runtime` (lines 199-226):
resolve the old symbol (prefer `'t'`) and the new symbol (prefer `'T'`) —
a `RuntimeError` is caught and the replacement contributes no patches —
scan for call sites (none: warning, continue), then patch each site. -/
def process_replacement (syms : List SymRecord) (disasm : List DisasmRecord)
    (data : List ℕ) (file_offset_base vaddr_base : ℤ) (r : Replacement) :
    Except RuntimeFault (List ℕ × ℕ) :=
  match find_symbol_address syms r.old_func (some 't') with
  | Except.error _ => Except.ok (data, 0)
  | Except.ok old_addr =>
    match find_symbol_address syms r.new_func (some 'T') with
    | Except.error _ => Except.ok (data, 0)
    | Except.ok new_addr =>
      let call_sites := find_call_sites disasm (old_addr : ℤ)
      if call_sites.isEmpty then Except.ok (data, 0)
      else
        patch_sites data file_offset_base vaddr_base (call_sites.map Prod.fst)
          (old_addr : ℤ) (new_addr : ℤ)

/-- The replacement loop, accumulating `total_patches`. -/
def run_replacements (syms : List SymRecord) (disasm : List DisasmRecord)
    (file_offset_base vaddr_base : ℤ) :
    List ℕ → List Replacement → Except RuntimeFault (List ℕ × ℕ)
  | data, [] => Except.ok (data, 0)
  | data, r :: rest =>
    match process_replacement syms disasm data file_offset_base vaddr_base r with
    | Except.error e => Except.error e
    | Except.ok (data', n) =>
      match run_replacements syms disasm file_offset_base vaddr_base data' rest with
      | Except.error e => Except.error e
      | Except.ok (data'', m) => Except.ok (data'', n + m)

/-- Outcome of a completed run: the bytes on disk after the run, whether the
file was rewritten, the process-wide patch total, and the exit status. -/
structure PatchOutcome where
  final_data : List ℕ
  wrote : Bool
  total_patches : ℕ
  success : Bool
deriving DecidableEq, Repr

/-- `patch_runtime(elf_path, replacements)` (lines 178-236), over the
structured collaborator outputs.  `original` is the file's byte content as
read; the commit step (lines 228-236) rewrites the file with the mutated
buffer iff `total_patches > 0`, otherwise the on-disk bytes stay `original`. -/
def patch_runtime (syms : List SymRecord) (disasm : List DisasmRecord)
    (file_offset_base vaddr_base : ℤ) (original : List ℕ)
    (replacements : List Replacement) : Except RuntimeFault PatchOutcome :=
  match run_replacements syms disasm file_offset_base vaddr_base original replacements with
  | Except.error e => Except.error e
  | Except.ok (data, total) =>
    if 0 < total then Except.ok ⟨data, true, total, true⟩
    else Except.ok ⟨original, false, total, false⟩

/-! ### Claim C1 -/

/-- C1: encoding the call-with-link instruction and decoding the result with
the decode rule used in `patch_call_site` does NOT yield back the target for
backward branches.  On the module docstring's own example
(`pc = 0x27c2a4`, `target = 0x26ecf0`, an aligned, in-range offset of
`-0xd5b4`), the encoder produces the documented word `0x97ffca93`, but the
decode rule yields `0x40026ecf0 = target + 2^34`: the sign-extension
`imm26 |= 0xfc000000` produces a large positive Python int, never a negative
offset, so the round-trip the claim states fails on every negative offset.
The spec's §4.4 signed decode rule (`disasm_bl_target`) does recover the
target on the same word, isolating the slip to the in-repository decode. -/
theorem bl_roundtrip_decode_bug :
    encode_bl_instruction 0x27c2a4 0x26ecf0 = Except.ok 0x97ffca93 ∧
    decode_bl_target 0x27c2a4 0x97ffca93 = 0x26ecf0 + 0x400000000 ∧
    decode_bl_target 0x27c2a4 0x97ffca93 ≠ 0x26ecf0 ∧
    disasm_bl_target 0x27c2a4 0x97ffca93 = 0x26ecf0 :=
  ⟨by rfl, by decide, by decide, by decide⟩

/-! ### Claim C3 -/

/-- C3: for every `pc` and `target`, encoding succeeds at exactly the extreme
representable signed-26-bit-word byte offsets `2^27 - 4` and `-2^27`, and
fails with the out-of-range condition one word beyond either boundary
(`2^27` and `-2^27 - 4`; both are multiples of 4, so the alignment check
passes and the failure is `OffsetOutOfRange`). -/
theorem encode_bl_boundary (pc target : ℤ) :
    (target - pc = 0x7fffffc → encode_bl_instruction pc target = Except.ok 0x95ffffff) ∧
    (target - pc = -0x8000000 → encode_bl_instruction pc target = Except.ok 0x96000000) ∧
    (target - pc = 0x8000000 →
      encode_bl_instruction pc target = Except.error (EncodeError.offsetOutOfRange 0x8000000)) ∧
    (target - pc = -0x8000004 →
      encode_bl_instruction pc target = Except.error (EncodeError.offsetOutOfRange (-0x8000004))) := by
  refine ⟨fun h => ?_, fun h => ?_, fun h => ?_, fun h => ?_⟩ <;>
    · unfold encode_bl_instruction
      rw [h]
      rfl

/-- Witness for C3 at concrete addresses. -/
theorem encode_bl_boundary_witness :
    encode_bl_instruction 0 0x7fffffc = Except.ok 0x95ffffff ∧
    encode_bl_instruction 0 (-0x8000000) = Except.ok 0x96000000 ∧
    encode_bl_instruction 0 0x8000000 = Except.error (EncodeError.offsetOutOfRange 0x8000000) ∧
    encode_bl_instruction 0 (-0x8000004) =
      Except.error (EncodeError.offsetOutOfRange (-0x8000004)) :=
  ⟨(encode_bl_boundary 0 0x7fffffc).1 (by decide),
   (encode_bl_boundary 0 (-0x8000000)).2.1 (by decide),
   (encode_bl_boundary 0 0x8000000).2.2.1 (by decide),
   (encode_bl_boundary 0 (-0x8000004)).2.2.2 (by decide)⟩

/-! ### Claim C4 -/

/-- C4: whenever `target - pc` is not a multiple of 4, encoding fails with
the misaligned-target condition, regardless of the magnitude of the offset —
the alignment check precedes the range check. -/
theorem encode_bl_misaligned (pc target : ℤ) (h : Int.emod (target - pc) 4 ≠ 0) :
    encode_bl_instruction pc target = Except.error (EncodeError.misalignedTarget (target - pc)) := by
  unfold encode_bl_instruction
  simp [h]

/-- Witness for C4 at an offset far outside the ±2^27 range (`2^30 + 1`). -/
theorem encode_bl_misaligned_witness :
    encode_bl_instruction 0 0x40000001 =
      Except.error (EncodeError.misalignedTarget 0x40000001) := by
  have h := encode_bl_misaligned 0 0x40000001 (by decide)
  simpa using h

/-! ### Unfolding equations and case analysis for the engine -/

theorem patch_call_site_def (data : List ℕ) (fob vb cv old new : ℤ) :
    patch_call_site data fob vb cv old new =
      if fob + (cv - vb) < 0 ∨ (data.length : ℤ) ≤ fob + (cv - vb) then
        (Except.ok false, data)
      else if (data.length : ℤ) < fob + (cv - vb) + 4 then
        (Except.error (RuntimeFault.unpackOutOfBounds (fob + (cv - vb))), data)
      else if readWordLE data (fob + (cv - vb)).toNat &&& 0xfc000000 ≠ 0x94000000 then
        (Except.ok false, data)
      else
        match encode_bl_instruction cv new with
        | Except.error _ => (Except.ok false, data)
        | Except.ok w => (Except.ok true, writeWordLE data (fob + (cv - vb)).toNat w) := rfl

/-- Every call to `patch_call_site` either leaves the buffer untouched and
does not report a patch, or the encoder succeeded and exactly the four bytes
of the translated offset were rewritten. -/
theorem patch_call_site_cases (data : List ℕ) (fob vb cv old new : ℤ) :
    (∃ r, patch_call_site data fob vb cv old new = (r, data) ∧ r ≠ Except.ok true) ∨
    (∃ w, encode_bl_instruction cv new = Except.ok w ∧
      patch_call_site data fob vb cv old new =
        (Except.ok true, writeWordLE data (fob + (cv - vb)).toNat w)) := by
  rw [patch_call_site_def]
  split
  · exact Or.inl ⟨_, rfl, by simp⟩
  · split
    · exact Or.inl ⟨_, rfl, by simp⟩
    · split
      · exact Or.inl ⟨_, rfl, by simp⟩
      · split
        · exact Or.inl ⟨_, rfl, by simp⟩
        · next w hw => exact Or.inr ⟨w, hw, rfl⟩

/-- A call that does not report success leaves the buffer untouched. -/
theorem patch_call_site_not_true_frame (data : List ℕ) (fob vb cv old new : ℤ)
    (h : (patch_call_site data fob vb cv old new).1 ≠ Except.ok true) :
    (patch_call_site data fob vb cv old new).2 = data := by
  rcases patch_call_site_cases data fob vb cv old new with ⟨r, hr, _⟩ | ⟨w, _, hr⟩
  · rw [hr]
  · rw [hr] at h
    simp at h

/-- An out-of-bounds translated offset is rejected by the first check. -/
theorem patch_call_site_oob (data : List ℕ) (fob vb cv old new : ℤ)
    (h : fob + (cv - vb) < 0 ∨ (data.length : ℤ) ≤ fob + (cv - vb)) :
    patch_call_site data fob vb cv old new = (Except.ok false, data) := by
  rw [patch_call_site_def, if_pos h]

theorem patch_sites_nil (data : List ℕ) (fob vb old new : ℤ) :
    patch_sites data fob vb [] old new = Except.ok (data, 0) := rfl

/-- One step of the site loop, with the call's outcome substituted in. -/
theorem patch_sites_cons_reduce (data data' : List ℕ) (fob vb cv : ℤ) (rest : List ℤ)
    (old new : ℤ) (b : Bool)
    (h : patch_call_site data fob vb cv old new = (Except.ok b, data')) :
    patch_sites data fob vb (cv :: rest) old new =
      match patch_sites data' fob vb rest old new with
      | Except.error e => Except.error e
      | Except.ok (d, n) => Except.ok (d, (if b then 1 else 0) + n) := by
  show (match patch_call_site data fob vb cv old new with
    | (Except.error e, _) => Except.error e
    | (Except.ok patched, data') =>
      match patch_sites data' fob vb rest old new with
      | Except.error e => Except.error e
      | Except.ok (d, n) => Except.ok (d, (if patched then 1 else 0) + n)) = _
  rw [h]

/-- A site on which `patch_call_site` returns `False` without touching the
buffer contributes nothing to the site loop: the remaining sibling sites are
processed exactly as if the site were absent. -/
theorem patch_sites_cons_skip (data : List ℕ) (fob vb cv : ℤ) (rest : List ℤ)
    (old new : ℤ)
    (h : patch_call_site data fob vb cv old new = (Except.ok false, data)) :
    patch_sites data fob vb (cv :: rest) old new = patch_sites data fob vb rest old new := by
  rw [patch_sites_cons_reduce data data fob vb cv rest old new false h]
  cases hr : patch_sites data fob vb rest old new with
  | error e => rfl
  | ok p =>
    obtain ⟨d, n⟩ := p
    simp

/-! ### Claim C2 -/

/-- C2: a translated buffer offset that is out of bounds (negative or at
least the buffer length) is a non-fatal, site-local failure: the call
returns `False` (no exception — the Python return value is `Except.ok
false`, never `Except.error`), the buffer is untouched, and the site loop
continues with the sibling sites exactly as if the site were absent. -/
theorem oob_offset_site_local (data : List ℕ) (fob vb cv old new : ℤ) (rest : List ℤ)
    (h : fob + (cv - vb) < 0 ∨ (data.length : ℤ) ≤ fob + (cv - vb)) :
    patch_call_site data fob vb cv old new = (Except.ok false, data) ∧
    patch_sites data fob vb (cv :: rest) old new = patch_sites data fob vb rest old new := by
  have h1 := patch_call_site_oob data fob vb cv old new h
  exact ⟨h1, patch_sites_cons_skip data fob vb cv rest old new h1⟩

/-- Witness for C2: a site whose virtual address translates past the end of
a 4-byte image is skipped and its sibling (a successfully patched site at
offset 0) is still attempted. -/
theorem oob_offset_site_local_witness :
    patch_call_site [0, 0, 0, 0] 0 0 10 0 0 = (Except.ok false, [0, 0, 0, 0]) ∧
    patch_sites [0, 0, 0, 0] 0 0 (10 :: [0]) 0 0 = patch_sites [0, 0, 0, 0] 0 0 [0] 0 0 :=
  oob_offset_site_local [0, 0, 0, 0] 0 0 10 0 0 [0] (by decide)

/-! ### Claim C9 -/

/-- C9: whenever `patch_call_site` returns failure (`False`: out-of-bounds
offset, non-`bl` instruction word, or encode error), the image buffer is
byte-for-byte unchanged by the call — every failing path returns before the
write. -/
theorem failed_site_buffer_unchanged (data : List ℕ) (fob vb cv old new : ℤ)
    (h : (patch_call_site data fob vb cv old new).1 = Except.ok false) :
    (patch_call_site data fob vb cv old new).2 = data :=
  patch_call_site_not_true_frame data fob vb cv old new (by simp [h])

/-- Witness for C9 at a site whose instruction word fails the opcode check. -/
theorem failed_site_buffer_unchanged_witness :
    (patch_call_site [1, 2, 3, 4] 0 0 0 0 0).2 = [1, 2, 3, 4] :=
  failed_site_buffer_unchanged [1, 2, 3, 4] 0 0 0 0 0 (by rfl)

/-! ### Claim C7 -/

/-- C7: a call site whose word passes the opcode-class check but whose
decoded target differs from the expected prior address is still patched:
since the decode/compare step only prints a warning, the outcome does not
depend on `old_target` at all — the new instruction is encoded and written,
and the call reports success. -/
theorem mismatch_warn_only_patches (data : List ℕ) (fob vb cv old_target new_target : ℤ)
    (w : ℕ)
    (h0 : 0 ≤ fob + (cv - vb))
    (h4 : fob + (cv - vb) + 4 ≤ (data.length : ℤ))
    (hop : readWordLE data (fob + (cv - vb)).toNat &&& 0xfc000000 = 0x94000000)
    (_hmis : decode_bl_target cv (readWordLE data (fob + (cv - vb)).toNat) ≠ old_target)
    (henc : encode_bl_instruction cv new_target = Except.ok w) :
    patch_call_site data fob vb cv old_target new_target =
      (Except.ok true, writeWordLE data (fob + (cv - vb)).toNat w) := by
  rw [patch_call_site_def, if_neg (by omega), if_neg (by omega), if_neg (by simp [hop]), henc]

/-- Witness for C7: the stored word `0x97ffca93` is a `bl` whose decoded
target is not the expected `5`; the site is rewritten to call `8` anyway. -/
theorem mismatch_warn_only_patches_witness :
    patch_call_site [0x93, 0xca, 0xff, 0x97] 0 0 0 5 8 =
      (Except.ok true, writeWordLE [0x93, 0xca, 0xff, 0x97] ((0 : ℤ) + (0 - 0)).toNat 0x94000002) :=
  mismatch_warn_only_patches [0x93, 0xca, 0xff, 0x97] 0 0 0 5 8 0x94000002
    (by decide) (by decide) (by decide) (by decide) (by rfl)

/-! ### Claim C10 -/

/-- C10: whenever `patch_call_site` returns success, the buffer after the
call is the old buffer with exactly the four bytes at
`file_offset_base + (call_vaddr - vaddr_base)` rewritten to the encoded
instruction; the length and every byte outside that 4-byte window are
unchanged. -/
theorem patched_site_frame (data : List ℕ) (fob vb cv old new : ℤ)
    (h : (patch_call_site data fob vb cv old new).1 = Except.ok true) :
    ∃ w, encode_bl_instruction cv new = Except.ok w ∧
      (patch_call_site data fob vb cv old new).2 =
        writeWordLE data (fob + (cv - vb)).toNat w ∧
      (patch_call_site data fob vb cv old new).2.length = data.length ∧
      ∀ i : ℕ, i < (fob + (cv - vb)).toNat ∨ (fob + (cv - vb)).toNat + 4 ≤ i →
        (patch_call_site data fob vb cv old new).2.getD i 0 = data.getD i 0 := by
  rcases patch_call_site_cases data fob vb cv old new with ⟨r, hr, hne⟩ | ⟨w, hw, hr⟩
  · rw [hr] at h
    exact absurd h hne
  · refine ⟨w, hw, ?_, ?_, ?_⟩
    · rw [hr]
    · rw [hr]
      exact length_writeWordLE data _ w
    · intro i hi
      rw [hr]
      exact getD_writeWordLE_of_ne data _ w i hi

/-- Witness for C10 on a patched 6-byte image: bytes 4 and 5 survive. -/
theorem patched_site_frame_witness :
    ∃ w, encode_bl_instruction 0 8 = Except.ok w ∧
      (patch_call_site [0x93, 0xca, 0xff, 0x97, 7, 9] 0 0 0 5 8).2 =
        writeWordLE [0x93, 0xca, 0xff, 0x97, 7, 9] ((0 : ℤ) + (0 - 0)).toNat w ∧
      (patch_call_site [0x93, 0xca, 0xff, 0x97, 7, 9] 0 0 0 5 8).2.length =
        ([0x93, 0xca, 0xff, 0x97, 7, 9] : List ℕ).length ∧
      ∀ i : ℕ, i < ((0 : ℤ) + (0 - 0)).toNat ∨ ((0 : ℤ) + (0 - 0)).toNat + 4 ≤ i →
        (patch_call_site [0x93, 0xca, 0xff, 0x97, 7, 9] 0 0 0 5 8).2.getD i 0 =
          ([0x93, 0xca, 0xff, 0x97, 7, 9] : List ℕ).getD i 0 :=
  patched_site_frame [0x93, 0xca, 0xff, 0x97, 7, 9] 0 0 0 5 8 (by rfl)

/-! ### Claim C8 -/

theorem emod_as_mod (a b : ℤ) : Int.emod a b = a % b := rfl

theorem encode_bl_instruction_def (pc target : ℤ) :
    encode_bl_instruction pc target =
      if Int.emod (target - pc) 4 ≠ 0 then
        Except.error (EncodeError.misalignedTarget (target - pc))
      else if ¬ (-0x8000000 ≤ target - pc ∧ target - pc ≤ 0x7ffffff) then
        Except.error (EncodeError.offsetOutOfRange (target - pc))
      else
        Except.ok
          (0x94000000 ||| (Int.toNat (Int.emod (Int.fdiv (target - pc) 4) 0x4000000))) := rfl

/-- For a word-aligned offset `4 * s` with `s` in signed-26-bit range, the
encoder succeeds and the immediate field is `s mod 2^26`. -/
theorem encode_bl_ok_of_small (pc target s : ℤ) (hs : target - pc = 4 * s)
    (hlo : -0x2000000 ≤ s) (hhi : s < 0x2000000) :
    encode_bl_instruction pc target =
      Except.ok (0x94000000 + (Int.emod s 0x4000000).toNat) := by
  rw [encode_bl_instruction_def, hs]
  rw [if_neg (by rw [emod_as_mod]; omega), if_neg (by omega)]
  rw [Int.fdiv_eq_ediv _ (by norm_num), show (4 : ℤ) * s / 4 = s from Int.mul_ediv_cancel_left s (by norm_num)]
  have hnn : 0 ≤ Int.emod s 0x4000000 := Int.emod_nonneg s (by norm_num)
  have hub : Int.emod s 0x4000000 < 0x4000000 := Int.emod_lt_of_pos s (by norm_num)
  rw [lor_bl_opcode _ (by omega)]

/-- The encoder inverts the disassembler's decode rule: for any 32-bit word
of the call-with-link opcode class, re-encoding its decoded target at the
same address reproduces the word exactly. -/
theorem encode_disasm_target (cv : ℤ) (insn : ℕ) (hlt : insn < 0x100000000)
    (hop : insn &&& 0xfc000000 = 0x94000000) :
    encode_bl_instruction cv (disasm_bl_target cv insn) = Except.ok insn := by
  have hq : insn / 0x4000000 = 37 := by
    have h := land_top6 insn hlt
    rw [hop] at h
    omega
  have hrlt : insn % 0x4000000 < 0x4000000 := Nat.mod_lt _ (by norm_num)
  have hinsn : insn = 0x94000000 + insn % 0x4000000 := by omega
  show encode_bl_instruction cv
    (cv + (if (0x2000000 : ℕ) ≤ insn % 0x4000000
      then ((insn % 0x4000000 : ℕ) : ℤ) - 0x4000000
      else ((insn % 0x4000000 : ℕ) : ℤ)) * 4) = Except.ok insn
  by_cases hbit : (0x2000000 : ℕ) ≤ insn % 0x4000000
  · rw [if_pos hbit,
      encode_bl_ok_of_small cv _ (((insn % 0x4000000 : ℕ) : ℤ) - 0x4000000)
        (by ring) (by omega) (by omega)]
    congr 1
    rw [emod_as_mod]
    omega
  · rw [if_neg hbit,
      encode_bl_ok_of_small cv _ ((insn % 0x4000000 : ℕ) : ℤ)
        (by ring) (by omega) (by omega)]
    congr 1
    rw [emod_as_mod]
    omega

/-- C8: a self-patch is a byte-level no-op.  If a replacement's resolved
source and target addresses are the same address `a`, and a call site's
stored word is a valid call-with-link instruction whose decoded target (per
the §4.4 decode rule the disassembler uses to have selected the site) is
`a`, then `patch_call_site` still performs the rewrite — the encoder
succeeds and the word is written — but the written bytes equal the bytes
already present, so the buffer is unchanged. -/
theorem self_patch_noop (data : List ℕ) (fob vb cv a : ℤ)
    (hwf : ByteBuf data)
    (h0 : 0 ≤ fob + (cv - vb))
    (h4 : fob + (cv - vb) + 4 ≤ (data.length : ℤ))
    (hop : readWordLE data (fob + (cv - vb)).toNat &&& 0xfc000000 = 0x94000000)
    (hdec : disasm_bl_target cv (readWordLE data (fob + (cv - vb)).toNat) = a) :
    encode_bl_instruction cv a = Except.ok (readWordLE data (fob + (cv - vb)).toNat) ∧
    patch_call_site data fob vb cv a a = (Except.ok true, data) := by
  have hlt : readWordLE data (fob + (cv - vb)).toNat < 0x100000000 :=
    readWordLE_lt data (fob + (cv - vb)).toNat hwf
  have henc := encode_disasm_target cv (readWordLE data (fob + (cv - vb)).toNat) hlt hop
  rw [hdec] at henc
  refine ⟨henc, ?_⟩
  rw [patch_call_site_def, if_neg (by omega), if_neg (by omega), if_neg (by simp [hop]), henc]
  show (Except.ok true,
    writeWordLE data (fob + (cv - vb)).toNat (readWordLE data (fob + (cv - vb)).toNat)) =
    (Except.ok true, data)
  rw [writeWordLE_readWordLE data (fob + (cv - vb)).toNat hwf (by omega)]

/-- Witness for C8 on the docstring's backward call: word `0x97ffca93` at
virtual address `0x27c2a4` calls `0x26ecf0`; self-patching
`0x26ecf0 → 0x26ecf0` rewrites the same four bytes. -/
theorem self_patch_noop_witness :
    encode_bl_instruction 0x27c2a4 0x26ecf0 =
      Except.ok (readWordLE [0x93, 0xca, 0xff, 0x97] ((0 : ℤ) + (0x27c2a4 - 0x27c2a4)).toNat) ∧
    patch_call_site [0x93, 0xca, 0xff, 0x97] 0 0x27c2a4 0x27c2a4 0x26ecf0 0x26ecf0 =
      (Except.ok true, [0x93, 0xca, 0xff, 0x97]) :=
  self_patch_noop [0x93, 0xca, 0xff, 0x97] 0 0x27c2a4 0x27c2a4 0x26ecf0
    (by unfold ByteBuf; decide) (by decide) (by decide) (by decide) (by decide)

/-! ### Claim C5 -/

theorem patch_sites_cons_error (data data' : List ℕ) (fob vb cv : ℤ) (rest : List ℤ)
    (old new : ℤ) (e : RuntimeFault)
    (h : patch_call_site data fob vb cv old new = (Except.error e, data')) :
    patch_sites data fob vb (cv :: rest) old new = Except.error e := by
  show (match patch_call_site data fob vb cv old new with
    | (Except.error e, _) => Except.error e
    | (Except.ok patched, data') =>
      match patch_sites data' fob vb rest old new with
      | Except.error e => Except.error e
      | Except.ok (d, n) => Except.ok (d, (if patched then 1 else 0) + n)) = Except.error e
  rw [h]

/-- A site loop that reports zero patches left the buffer untouched. -/
theorem patch_sites_zero_frame (fob vb old new : ℤ) :
    ∀ (sites : List ℤ) (data data' : List ℕ),
      patch_sites data fob vb sites old new = Except.ok (data', 0) → data' = data := by
  intro sites
  induction sites with
  | nil =>
    intro data data' h
    rw [patch_sites_nil] at h
    simp only [Except.ok.injEq, Prod.mk.injEq] at h
    exact h.1.symm
  | cons cv rest ih =>
    intro data data' h
    obtain ⟨r, d2, hsplit⟩ : ∃ r d2, patch_call_site data fob vb cv old new = (r, d2) :=
      ⟨_, _, rfl⟩
    cases r with
    | error e =>
      rw [patch_sites_cons_error data d2 fob vb cv rest old new e hsplit] at h
      simp at h
    | ok b =>
      rw [patch_sites_cons_reduce data d2 fob vb cv rest old new b hsplit] at h
      cases hr : patch_sites d2 fob vb rest old new with
      | error e =>
        rw [hr] at h
        simp at h
      | ok p =>
        obtain ⟨d3, n⟩ := p
        rw [hr] at h
        simp only [Except.ok.injEq, Prod.mk.injEq] at h
        obtain ⟨hd, hn⟩ := h
        have hb : b = false := by
          cases b
          · rfl
          · simp at hn
        subst hb
        have hn0 : n = 0 := by simp at hn; exact hn
        subst hn0
        have hd2 : d2 = data := by
          have hfr := patch_call_site_not_true_frame data fob vb cv old new
            (by rw [hsplit]; simp)
          rw [hsplit] at hfr
          exact hfr
        rw [← hd, ih d2 d3 hr, hd2]

theorem process_replacement_def (syms : List SymRecord) (disasm : List DisasmRecord)
    (data : List ℕ) (fob vb : ℤ) (r : Replacement) :
    process_replacement syms disasm data fob vb r =
      match find_symbol_address syms r.old_func (some 't') with
      | Except.error _ => Except.ok (data, 0)
      | Except.ok old_addr =>
        match find_symbol_address syms r.new_func (some 'T') with
        | Except.error _ => Except.ok (data, 0)
        | Except.ok new_addr =>
          if (find_call_sites disasm (old_addr : ℤ)).isEmpty then Except.ok (data, 0)
          else
            patch_sites data fob vb ((find_call_sites disasm (old_addr : ℤ)).map Prod.fst)
              (old_addr : ℤ) (new_addr : ℤ) := rfl

/-- A replacement that contributes zero patches leaves the buffer untouched. -/
theorem process_replacement_zero_frame (syms : List SymRecord) (disasm : List DisasmRecord)
    (data data' : List ℕ) (fob vb : ℤ) (r : Replacement)
    (h : process_replacement syms disasm data fob vb r = Except.ok (data', 0)) :
    data' = data := by
  rw [process_replacement_def] at h
  split at h
  · simp only [Except.ok.injEq, Prod.mk.injEq] at h
    exact h.1.symm
  · split at h
    · simp only [Except.ok.injEq, Prod.mk.injEq] at h
      exact h.1.symm
    · split at h
      · simp only [Except.ok.injEq, Prod.mk.injEq] at h
        exact h.1.symm
      · exact patch_sites_zero_frame fob vb _ _ _ data data' h

/-- A whole run that reports zero patches leaves the buffer untouched. -/
theorem run_replacements_zero_frame (syms : List SymRecord) (disasm : List DisasmRecord)
    (fob vb : ℤ) :
    ∀ (reps : List Replacement) (data data' : List ℕ),
      run_replacements syms disasm fob vb data reps = Except.ok (data', 0) → data' = data := by
  intro reps
  induction reps with
  | nil =>
    intro data data' h
    simp only [run_replacements, Except.ok.injEq, Prod.mk.injEq] at h
    exact h.1.symm
  | cons r rest ih =>
    intro data data' h
    unfold run_replacements at h
    split at h
    · simp at h
    · next d2 n heq =>
      split at h
      · simp at h
      · next d3 m heq2 =>
        simp only [Except.ok.injEq, Prod.mk.injEq] at h
        obtain ⟨hd, hnm⟩ := h
        have hn : n = 0 := by omega
        have hm : m = 0 := by omega
        subst hn hm
        rw [← hd, ih d2 d3 heq2, process_replacement_zero_frame syms disasm data d2 fob vb r heq]

/-- C5: the on-disk image is rewritten (with the full mutated buffer) iff the
process-wide total of successfully patched sites is positive; when the total
is zero the output bytes — and even the in-memory buffer — are byte-for-byte
the input bytes. -/
theorem commit_iff_patches (syms : List SymRecord) (disasm : List DisasmRecord)
    (fob vb : ℤ) (original : List ℕ) (reps : List Replacement) (res : PatchOutcome)
    (h : patch_runtime syms disasm fob vb original reps = Except.ok res) :
    (res.wrote = true ↔ 0 < res.total_patches) ∧
    (res.wrote = true →
      run_replacements syms disasm fob vb original reps =
        Except.ok (res.final_data, res.total_patches)) ∧
    (res.total_patches = 0 →
      res.final_data = original ∧
      run_replacements syms disasm fob vb original reps = Except.ok (original, 0)) := by
  unfold patch_runtime at h
  split at h
  · simp at h
  · next data total heq =>
    split at h
    · next hpos =>
      simp only [Except.ok.injEq] at h
      subst h
      refine ⟨by simpa using hpos, fun _ => heq, fun h0 => absurd hpos (by simp at h0; omega)⟩
    · next hpos =>
      simp only [Except.ok.injEq] at h
      subst h
      have htot : total = 0 := by omega
      subst htot
      have hdata : data = original := run_replacements_zero_frame syms disasm fob vb reps original data heq
      subst hdata
      exact ⟨by simp, by simp, fun _ => ⟨rfl, heq⟩⟩

/-- Witness for C5: a run whose single replacement names an unknown symbol
patches nothing, and the on-disk bytes stay identical to the input. -/
theorem commit_iff_patches_witness :
    ((false = true) ↔ (0 : ℕ) < 0) ∧
    ((false = true) →
      run_replacements [] [] 0 0 [1, 2, 3] [⟨"a", "b"⟩] = Except.ok ([1, 2, 3], 0)) ∧
    ((0 : ℕ) = 0 →
      ([1, 2, 3] : List ℕ) = [1, 2, 3] ∧
      run_replacements [] [] 0 0 [1, 2, 3] [⟨"a", "b"⟩] = Except.ok ([1, 2, 3], 0)) :=
  commit_iff_patches [] [] 0 0 [1, 2, 3] [⟨"a", "b"⟩] ⟨[1, 2, 3], false, 0, false⟩ (by rfl)

/-! ### Claim C6 -/

/-- The preference loop returns the address of the first match of the
preferred type, in input order. -/
theorem preferLoop_eq_find : ∀ (l : List SymRecord) (t : Char),
    preferLoop l t = (l.find? (fun r => r.symType == t)).map SymRecord.addr
  | [], _ => rfl
  | r :: rest, t => by
    unfold preferLoop
    by_cases h : r.symType = t
    · rw [if_pos h, List.find?_cons_of_pos _ (by simp [h])]
      rfl
    · rw [if_neg h, List.find?_cons_of_neg _ (by simp [h]), preferLoop_eq_find rest t]

theorem find_symbol_address_nil (records : List SymRecord) (symbol_name : String)
    (prefer_type : Option Char) (hm : symbolMatches records symbol_name = []) :
    find_symbol_address records symbol_name prefer_type =
      Except.error (SymbolError.symbolNotFound symbol_name) := by
  unfold find_symbol_address
  rw [hm]

theorem find_symbol_address_cons (records : List SymRecord) (symbol_name : String)
    (m : SymRecord) (rest : List SymRecord) (t : Char)
    (hm : symbolMatches records symbol_name = m :: rest) :
    find_symbol_address records symbol_name (some t) =
      match preferLoop (m :: rest) t with
      | some addr => Except.ok addr
      | none => Except.ok m.addr := by
  unfold find_symbol_address
  rw [hm]

/-- C6: for every record sequence and requested name with a preferred
visibility: if some record matching the name with function-symbol visibility
(`'T'` global or `'t'` local/weak) has the preferred type, the resolver
returns the address of the first such record in input order; otherwise it
returns the address of the first matching record regardless of type; and it
fails with `SymbolNotFound` exactly when no record matches. -/
theorem resolver_first_preferred (records : List SymRecord) (symbol_name : String) (t : Char) :
    (∀ r, (symbolMatches records symbol_name).find? (fun x => x.symType == t) = some r →
      find_symbol_address records symbol_name (some t) = Except.ok r.addr) ∧
    ((symbolMatches records symbol_name).find? (fun x => x.symType == t) = none →
      ∀ m rest, symbolMatches records symbol_name = m :: rest →
        find_symbol_address records symbol_name (some t) = Except.ok m.addr) ∧
    (find_symbol_address records symbol_name (some t) =
        Except.error (SymbolError.symbolNotFound symbol_name) ↔
      symbolMatches records symbol_name = []) := by
  refine ⟨?_, ?_, ?_⟩
  · intro r hr
    cases hm : symbolMatches records symbol_name with
    | nil =>
      rw [hm] at hr
      simp at hr
    | cons m rest =>
      rw [find_symbol_address_cons records symbol_name m rest t hm, preferLoop_eq_find]
      rw [hm] at hr
      rw [hr]
      rfl
  · intro hnone m rest hm
    rw [find_symbol_address_cons records symbol_name m rest t hm, preferLoop_eq_find]
    rw [hm] at hnone
    rw [hnone]
    rfl
  · constructor
    · intro herr
      cases hm : symbolMatches records symbol_name with
      | nil => rfl
      | cons m rest =>
        rw [find_symbol_address_cons records symbol_name m rest t hm] at herr
        cases hp : preferLoop (m :: rest) t with
        | none =>
          rw [hp] at herr
          simp at herr
        | some addr =>
          rw [hp] at herr
          simp at herr
    · intro hm
      exact find_symbol_address_nil records symbol_name (some t) hm

/-- Witness for C6: with two same-named records, preference `'t'` picks the
first local record (address 2) past the earlier global one; with only a
global record the preference falls back to it; an unknown name fails. -/
theorem resolver_first_preferred_witness :
    find_symbol_address [⟨1, 'T', "f"⟩, ⟨2, 't', "f"⟩, ⟨3, 't', "g"⟩] "f" (some 't') =
      Except.ok 2 ∧
    find_symbol_address [⟨1, 'T', "f"⟩] "f" (some 't') = Except.ok 1 ∧
    find_symbol_address [⟨1, 'T', "f"⟩] "h" (some 't') =
      Except.error (SymbolError.symbolNotFound "h") :=
  ⟨(resolver_first_preferred [⟨1, 'T', "f"⟩, ⟨2, 't', "f"⟩, ⟨3, 't', "g"⟩] "f" 't').1
      ⟨2, 't', "f"⟩ (by rfl),
   (resolver_first_preferred [⟨1, 'T', "f"⟩] "f" 't').2.1 (by rfl) ⟨1, 'T', "f"⟩ [] (by rfl),
   (resolver_first_preferred [⟨1, 'T', "f"⟩] "h" 't').2.2.mpr (by rfl)⟩

